import Mathlib

/-!
Shallow embedding of src/python/xcri_rdf.py (XCRI-CAP RDF-to-XML serializer)
and proofs about the claims of its specification.

Modelling conventions:
* An RDF graph (rdflib.Graph) is a finite list of triples; predicates are
  URI strings.  `objects`, `subjectsOf` and `value` model the rdflib pattern
  queries used by the source (`value` returns the first match, a fixed
  deterministic choice for rdflib's arbitrary one).
* Output is modelled as the stream of calls made to the document writer:
  startElement / characters / endElement events.  Indentation whitespace,
  which the IndentingXMLGenerator inserts around these calls, is not part of
  the logical element structure and is not modelled.
* Python dynamic failures (AttributeError from a missing attribute,
  TypeError from dateutil) are modelled with `Except Err`.
-/

namespace XcriRdf

/-- RDF nodes as this serializer sees them: URIRefs, blank nodes, and
literals carrying an optional datatype URI. -/
inductive Node where
  | uri (s : String)
  | blank (s : String)
  | lit (text : String) (datatype : Option String)
deriving DecidableEq, Repr

/-- Python str() of a node.  URIRef, BNode and Literal are all str
subclasses in rdflib; str() yields the identifier or lexical text. -/
def nodeStr : Node → String
  | .uri s => s
  | .blank s => s
  | .lit t _ => t

/-- Python truthiness of a node: these are str subclasses, so a node is
falsy exactly when the underlying text is empty. -/
def truthy (n : Node) : Bool := nodeStr n != ""

/-- The graph: a finite list of (subject, predicate, object) triples. -/
abbrev Graph := List (Node × String × Node)

/-- graph.objects(s, p): all objects of triples with the given subject and
predicate, in graph order. -/
def objects (g : Graph) (s : Node) (p : String) : List Node :=
  (g.filter (fun t => t.1 == s && t.2.1 == p)).map (fun t => t.2.2)

/-- graph.subjects(p, o): all subjects of triples with the given predicate
and object. -/
def subjectsOf (g : Graph) (p : String) (o : Node) : List Node :=
  (g.filter (fun t => t.2.1 == p && t.2.2 == o)).map (fun t => t.1)

/-- graph.value(s, p): the first matching object, if any. -/
def value (g : Graph) (s : Node) (p : String) : Option Node :=
  (objects g s p).head?

/-- graph.value(s, p) where the subject may be Python None: rdflib then
matches triples with any subject. -/
def valueOpt (g : Graph) (s : Option Node) (p : String) : Option Node :=
  match s with
  | some s => value g s p
  | none => ((g.filter (fun t => t.2.1 == p)).map (fun t => t.2.2)).head?

/-- An output event: one call to the document writer. -/
inductive Event where
  | startE (name : String) (attrs : List (String × String))
  | endE (name : String)
  | chars (s : String)
deriving DecidableEq, Repr

/-- xg.textualElement(name, attrs, content): startElement, characters,
endElement. -/
def textualElement (name : String) (attrs : List (String × String))
    (content : String) : List Event :=
  [.startE name attrs, .chars content, .endE name]

/-- Python runtime errors that the source can raise. `fuel` marks a run of
the (possibly non-terminating) location loop that did not finish within the
supplied fuel. -/
inductive Err where
  | attributeError
  | typeError
  | parseFailure
  | fuel
deriving DecidableEq, Repr

/-- Python dict assignment d[k] = v: overwrite in place if the key exists
(keeping its position), else append. -/
def setKey (l : List (String × String)) (k v : String) : List (String × String) :=
  if (l.lookup k).isSome then
    l.map (fun kv => if kv.1 == k then (kv.1, v) else kv)
  else l ++ [(k, v)]

/-! ### Namespace tables and xsi_type -/

/-- XMLNS: output-prefix to namespace-URI table, in dict insertion order. -/
def XMLNS : List (String × String) :=
  [("xcri", "http://xcri.org/profiles/1.2/catalog"),
   ("mlo", "http://purl.org/net/mlo"),
   ("dc", "http://purl.org/dc/elements/1.1/"),
   ("xsi", "http://www.w3.org/2001/XMLSchema-instance"),
   ("cdp", "http://xcri.co.uk"),
   ("html", "http://www.w3.org/1999/xhtml"),
   ("xcriterms", "http://xcri.org/profiles/1.2/catalog/terms")]

/-- INVERSE_XMLNS = [(k, XMLNS[k]) for k in sorted(XMLNS, key=len, reverse=True)]:
the (prefix, uri) pairs of XMLNS, stably sorted by decreasing length of the
PREFIX STRING (the dict keys, not the URIs).  Note the pairs are still
(prefix, uri): the name says inverse but nothing is inverted. -/
def INVERSE_XMLNS : List (String × String) :=
  [("xcriterms", "http://xcri.org/profiles/1.2/catalog/terms"),
   ("xcri", "http://xcri.org/profiles/1.2/catalog"),
   ("html", "http://www.w3.org/1999/xhtml"),
   ("mlo", "http://purl.org/net/mlo"),
   ("xsi", "http://www.w3.org/2001/XMLSchema-instance"),
   ("cdp", "http://xcri.co.uk"),
   ("dc", "http://purl.org/dc/elements/1.1/")]

/-- First character class of the is_localpart regex.  The pattern is compiled
with re.VERBOSE, but whitespace INSIDE a character class stays significant in
Python, so the class contains the space character as well. -/
def isNameStart (c : Char) : Bool :=
  (0x41 ≤ c.toNat && c.toNat ≤ 0x5a) || c.toNat == 0x5f || c.toNat == 0x20 ||
  (0x61 ≤ c.toNat && c.toNat ≤ 0x7a) ||
  (0xc0 ≤ c.toNat && c.toNat ≤ 0xd6) || (0xd8 ≤ c.toNat && c.toNat ≤ 0xf6) ||
  (0xf8 ≤ c.toNat && c.toNat ≤ 0xff) ||
  (0x37f ≤ c.toNat && c.toNat ≤ 0x1fff) || (0x200c ≤ c.toNat && c.toNat ≤ 0x218f)

/-- Second character class: the first one plus hyphen, dot and digits. -/
def isNameRest (c : Char) : Bool :=
  isNameStart c || c.toNat == 0x2d || c.toNat == 0x2e ||
  (0x30 ≤ c.toNat && c.toNat ≤ 0x39)

/-- is_localpart: the anchored regex match on a candidate XML local name.
(The dollar anchor of re.match would also accept one trailing newline; no
URI handled here carries a newline, so that corner is not modelled.) -/
def is_localpart (cs : List Char) : Bool :=
  match cs with
  | [] => false
  | c :: rest => isNameStart c && rest.all isNameRest

/-- The first loop of xsi_type: `for ns, prefix in INVERSE_XMLNS`.  The list
holds (prefix, uri) pairs, so the loop variable ns is bound to the short
prefix string and the loop variable prefix to the full namespace URI — the
startswith test therefore compares the URI against the PREFIX STRING, and a
successful return uses the full URI on the left of the colon. -/
def xsiTypeKnown : List (String × String) → List Char → Option (List (String × String))
  | [], _ => none
  | (k, u) :: rest, uri =>
      if k.data.isPrefixOf uri && is_localpart (uri.drop k.length) then
        some [("xsi:type", u ++ ":" ++ String.mk (uri.drop k.length))]
      else xsiTypeKnown rest uri

/-- The second loop of xsi_type: `for i in range(len(uri))`, returning at the
first index whose suffix is a valid local name, with a synthesized namespace
declaration for the remaining head of the URI. -/
def xsiTypeSuffix (pre rest : List Char) : Option (List (String × String)) :=
  match rest with
  | [] => none
  | c :: cs =>
      if is_localpart (c :: cs) then
        some [("xsi:type", "ns:" ++ String.mk (c :: cs)), ("xmlns:ns", String.mk pre)]
      else xsiTypeSuffix (pre ++ [c]) cs

/-- xsi_type(uri): compact-name resolution of a URI for use as an xsi:type
attribute set. -/
def xsi_type (uri : String) : List (String × String) :=
  match xsiTypeKnown INVERSE_XMLNS uri.data with
  | some a => a
  | none =>
      match xsiTypeSuffix [] uri.data with
      | some a => a
      | none => []

/-- xsi_type applied to Python None (a notation with no datatype): the very
first uri.startswith call raises AttributeError. -/
def xsiTypePy : Option String → Except Err (List (String × String))
  | none => .error .attributeError
  | some u => .ok (xsi_type u)

/-- Reading node.datatype: only Literals have the attribute; URIRef and
BNode raise AttributeError. -/
def datatypeOf : Node → Except Err (Option String)
  | .lit _ d => .ok d
  | _ => .error .attributeError

/-! ### Predicate URI constants (the NS table entries the serializer uses) -/

def skos_notation_uri : String := "http://www.w3.org/2004/02/skos/core#notation"
def skos_prefLabel_uri : String := "http://www.w3.org/2004/02/skos/core#prefLabel"
def skos_broader_uri : String := "http://www.w3.org/2004/02/skos/core#broader"
def skos_narrower_uri : String := "http://www.w3.org/2004/02/skos/core#narrower"
def skos_related_uri : String := "http://www.w3.org/2004/02/skos/core#related"
def rdfs_label_uri : String := "http://www.w3.org/2000/01/rdf-schema#label"
def rdfs_comment_uri : String := "http://www.w3.org/2000/01/rdf-schema#comment"
def dc_title_uri : String := "http://purl.org/dc/elements/1.1/title"
def dc_identifier_uri : String := "http://purl.org/dc/elements/1.1/identifier"
def dc_subject_uri : String := "http://purl.org/dc/elements/1.1/subject"
def dcterms_title_uri : String := "http://purl.org/dc/terms/title"
def dcterms_identifier_uri : String := "http://purl.org/dc/terms/identifier"
def dcterms_subject_uri : String := "http://purl.org/dc/terms/subject"
def dcterms_description_uri : String := "http://purl.org/dc/terms/description"
def foaf_homepage_uri : String := "http://xmlns.com/foaf/0.1/homepage"
def foaf_page_uri : String := "http://xmlns.com/foaf/0.1/page"
def v_adr_uri : String := "http://www.w3.org/2006/vcard/ns#adr"
def v_street_uri : String := "http://www.w3.org/2006/vcard/ns#street-address"
def v_extended_uri : String := "http://www.w3.org/2006/vcard/ns#extended-address"
def v_locality_uri : String := "http://www.w3.org/2006/vcard/ns#locality"
def v_postal_uri : String := "http://www.w3.org/2006/vcard/ns#postal-code"
def spatial_within_uri : String :=
  "http://data.ordnancesurvey.co.uk/ontology/spatialrelations/within"
def mlo_start_uri : String := "http://purl.org/net/mlo/start"
def xcri_end_uri : String := "http://xcri.org/profiles/1.2/end"
def xcri_studyMode_uri : String := "http://xcri.org/profiles/1.2/studyMode"
def xcri_attendanceMode_uri : String := "http://xcri.org/profiles/1.2/attendanceMode"
def xcri_attendancePattern_uri : String := "http://xcri.org/profiles/1.2/attendancePattern"
def time_inXSDDateTime_uri : String := "http://www.w3.org/2006/time#inXSDDateTime"
def rdf_value_uri : String := "http://www.w3.org/1999/02/22-rdf-syntax-ns#value"
def xsd_date_uri : String := "http://www.w3.org/2001/XMLSchema#date"
def xsd_dateTime_uri : String := "http://www.w3.org/2001/XMLSchema#dateTime"
def xtypes_fragXHTML_uri : String := "http://purl.org/xtypes/Fragment-XHTML"
def xtypes_fragHTML_uri : String := "http://purl.org/xtypes/Fragment-HTML"

/-- identifiers = (NS.dc.identifier, NS.dcterms.identifier). -/
def identifiersPreds : List String := [dc_identifier_uri, dcterms_identifier_uri]

/-- labels = (skos.prefLabel, rdfs.label, dcterms.title, dc.title). -/
def labels : List String :=
  [skos_prefLabel_uri, rdfs_label_uri, dcterms_title_uri, dc_title_uri]

/-- urls = (foaf.homepage, foaf.page). -/
def urls : List String := [foaf_homepage_uri, foaf_page_uri]

/-- descriptions = (dcterms.description, rdfs.comment). -/
def descriptions : List String := [dcterms_description_uri, rdfs_comment_uri]

/-- subject_predicates = (dcterms.subject, dc.subject). -/
def subject_predicates : List String := [dcterms_subject_uri, dc_subject_uri]

/-- The `for label in labels: content = value(e, l); if content: break` idiom:
the loop variable ends as the first truthy value; if no lookup is truthy it
keeps the raw result of the LAST lookup (possibly a falsy node, or none). -/
def pyFirstValue (g : Graph) (s : Option Node) : List String → Option Node
  | [] => none
  | [p] => valueOpt g s p
  | p :: rest =>
      match valueOpt g s p with
      | some x => if truthy x then some x else pyFirstValue g s rest
      | none => pyFirstValue g s rest

/-! ### serialize_identifiers -/

/-- The skos:notation loop of serialize_identifiers: each notation's datatype
is read (AttributeError on a non-Literal) and handed to xsi_type
(AttributeError when the datatype is absent, i.e. Python None); an empty
attribute set skips the element. -/
def notationElems (g : Graph) : List Node → Except Err (List Event)
  | [] => .ok []
  | obj :: rest => do
      let d ← datatypeOf obj
      let attrib ← xsiTypePy d
      let tail ← notationElems g rest
      if attrib.isEmpty then .ok tail
      else .ok (textualElement "dc:identifier" attrib (nodeStr obj) ++ tail)

/-- Python set insertion for strings, modelled with a deterministic
(insertion) order. -/
def setAdd (l : List String) (x : String) : List String :=
  if x ∈ l then l else l ++ [x]

/-- plain_identifiers: the entity's own URI (if it is a URIRef) plus every
Literal object of dc:identifier / dcterms:identifier, as a set. -/
def plainIdentifiers (g : Graph) (entity : Node) : List String :=
  let s0 : List String := match entity with | .uri u => [u] | _ => []
  (identifiersPreds.flatMap (objects g entity)).foldl
    (fun acc obj => match obj with | .lit t _ => setAdd acc t | _ => acc) s0

/-- serialize_identifiers. -/
def serialize_identifiers (g : Graph) (entity : Node) : Except Err (List Event) := do
  let a ← notationElems g (objects g entity skos_notation_uri)
  .ok (a ++ (plainIdentifiers g entity).flatMap
      (fun i => textualElement "dc:identifier" [] i))

/-! ### The first-match elements (title, url) -/

/-- The _find_first combinator without rich markup: emit one element for the
first object over the chained predicate list, if any. -/
def find_first_plain (g : Graph) (entity : Node) (name : String)
    (ps : List String) : List Event :=
  match (ps.flatMap (objects g entity)).head? with
  | some obj => textualElement name [] (nodeStr obj)
  | none => []

def serialize_title (g : Graph) (entity : Node) : List Event :=
  find_first_plain g entity "dc:title" labels

def serialize_url (g : Graph) (entity : Node) : List Event :=
  find_first_plain g entity "mlo:url" urls

/-! ### serialize_location -/

/-- address_elements: address-component predicate / element-name pairs. -/
def address_elements : List (String × String) :=
  [(v_street_uri, "mlo:address"),
   (v_extended_uri, "mlo:address"),
   (v_locality_uri, "mlo:address"),
   (v_postal_uri, "mlo:postcode")]

/-- The while loop of serialize_location, with fuel (`none` = the loop did
not finish within the fuel).  Faithful to the source: the v:adr lookup is
performed on `entity` — the STARTING entity — on every iteration, while only
the loop variable walks the spatialrelations:within chain.  Result
`some (some a)` is the break with address a, `some none` the else-branch
exit (no address). -/
def locLoop (g : Graph) (entity : Node) : Node → Nat → Option (Option Node)
  | _, 0 => none
  | cur, fuel + 1 =>
      if truthy cur = false then some none
      else
        let address := value g entity v_adr_uri
        if address.any truthy then some address
        else
          match value g cur spatial_within_uri with
          | some nx => locLoop g entity nx fuel
          | none => some none

/-- serialize_location: run the walk, then serialize the found address if at
least one address component is populated. -/
def serialize_location (g : Graph) (entity : Node) (fuel : Nat) :
    Except Err (List Event) :=
  match locLoop g entity entity fuel with
  | none => .error .fuel
  | some none => .ok []
  | some (some address) =>
      if address_elements.any (fun pe => (value g address pe.1).any truthy) then
        .ok ([.startE "mlo:location" []]
          ++ address_elements.flatMap (fun pe =>
               match value g address pe.1 with
               | some obj => if truthy obj then textualElement pe.2 [] (nodeStr obj) else []
               | none => [])
          ++ [.endE "mlo:location"])
      else .ok []

/-- The state of the loop variable after n iterations of the within walk
from `start`; a falsy state exits the while condition, modelled as none at
the next step. -/
def chainState (g : Graph) (start : Node) : Nat → Option Node
  | 0 => some start
  | n + 1 =>
      match chainState g start n with
      | none => none
      | some cur => if truthy cur then value g cur spatial_within_uri else none

/-! ### serialize_controlled_vocabularies -/

/-- controlled_vocabularies: (predicate, element name, expected notation
scheme datatype). -/
def controlled_vocabularies : List (String × String × String) :=
  [(xcri_studyMode_uri, "xcri:studyMode",
    "http://xcri.org/profiles/catalog/1.2/studyMode/notation"),
   (xcri_attendanceMode_uri, "xcri:attendanceMode",
    "http://xcri.org/profiles/catalog/1.2/attendanceMode/notation"),
   (xcri_attendancePattern_uri, "xcri:attendancePattern",
    "http://xcri.org/profiles/catalog/1.2/attendancePattern/notation")]

/-- The notation selection loop: break at the first notation whose datatype
equals the expected scheme, else (for-else) None.  Reading .datatype of a
non-Literal notation raises AttributeError. -/
def findSchemeNotn (g : Graph) (scheme : String) : List Node → Except Err (Option Node)
  | [] => .ok none
  | n :: rest => do
      let d ← datatypeOf n
      if d == some scheme then .ok (some n) else findSchemeNotn g scheme rest

/-- One iteration of the serialize_controlled_vocabularies loop. -/
def cvEntry (g : Graph) (pres : Node) (entry : String × String × String) :
    Except Err (List Event) :=
  match value g pres entry.1 with
  | none => .ok []
  | some v =>
      if truthy v = false then .ok []
      else do
        let noteOpt ← findSchemeNotn g entry.2.2 (objects g v skos_notation_uri)
        let content := pyFirstValue g (some v) labels
        let hasN := noteOpt.any truthy
        if !(hasN || content.any truthy) then .ok []
        else
          .ok (textualElement entry.2.1
            (match noteOpt with
             | some n => if truthy n then [("identifier", nodeStr n)] else []
             | none => [])
            (content.elim "" nodeStr))

def cvAll (g : Graph) (pres : Node) : List (String × String × String) →
    Except Err (List Event)
  | [] => .ok []
  | e :: rest => do
      let a ← cvEntry g pres e
      let b ← cvAll g pres rest
      .ok (a ++ b)

def serialize_controlled_vocabularies (g : Graph) (pres : Node) :
    Except Err (List Event) :=
  cvAll g pres controlled_vocabularies

/-! ### serialize_subjects -/

/-- Python set insertion for nodes (deterministic insertion order). -/
def setAddN (l : List Node) (x : Node) : List Node :=
  if x ∈ l then l else l ++ [x]

/-- subjects.update(xs). -/
def setUpd (l : List Node) (xs : List Node) : List Node := xs.foldl setAddN l

/-- The subject set of serialize_subjects: direct subjects, one pass adding
inverse-narrower and broader neighbours of the direct subjects, then one
pass adding related neighbours of that set. -/
def subjectNodes (g : Graph) (course : Node) : List Node :=
  let d := setUpd [] (subject_predicates.flatMap (objects g course))
  let s1 := d.foldl (fun acc s =>
    setUpd (setUpd acc (subjectsOf g skos_narrower_uri s)) (objects g s skos_broader_uri)) d
  s1.foldl (fun acc s => setUpd acc (objects g s skos_related_uri)) s1

/-- The fixed external classification authority treated specially. -/
def jacsBase : String := "http://jacs.dataincubator.org/"

/-- The per-subject body of the emission loop of serialize_subjects. -/
def subjectEntry (g : Graph) (subj : Node) : Except Err (List Event) :=
  match subj with
  | .lit t _ =>
      -- attrib, content = {}, str(subject); emitted only `if attrib or content`
      if t != "" then .ok (textualElement "dc:subject" [] t) else .ok []
  | _ => do
      let noteOpt := value g subj skos_notation_uri
      let attrib1 ←
        match noteOpt with
        | some n =>
            if truthy n then do
              let d ← datatypeOf n
              let a ← xsiTypePy d
              pure (setKey a "identifier" (nodeStr n))
            else pure []
        | none => pure []
      let content := pyFirstValue g (some subj) labels
      let attrib2 :=
        if jacsBase.data.isPrefixOf (nodeStr subj).data then
          setKey attrib1 "xsi:type" "cdp:JACS3"
        else attrib1
      if attrib2 != [] || content.any truthy then
        .ok (textualElement "dc:subject" attrib2 (content.elim "" nodeStr))
      else .ok []

def subjAll (g : Graph) : List Node → Except Err (List Event)
  | [] => .ok []
  | s :: rest => do
      let a ← subjectEntry g s
      let b ← subjAll g rest
      .ok (a ++ b)

def serialize_subjects (g : Graph) (course : Node) : Except Err (List Event) :=
  subjAll g (subjectNodes g course)

/-! ### serialize_date

The literal branch converts the literal with rdflib's Literal.toPython.
That yields a str for plain or unconvertible literals, a datetime.date /
datetime.datetime object for valid xsd:date / xsd:dateTime literals, and
other native objects (int, bool, ...) for other bound datatypes.  The
source then hands the CONVERTED object to dateutil.parser.parse, which
accepts only strings — a date/datetime input raises TypeError, uncaught by
the `except ValueError` handler. -/

/-- The result of Literal.toPython as far as this code distinguishes it. -/
inductive PyVal where
  | pstr (s : String)
  | pdate (y m d : Nat)
  | pdatetime (y mo d h mi s : Nat)
  | pother
deriving DecidableEq, Repr

/-- Split a character list on a separator. -/
def splitCh (sep : Char) : List Char → List (List Char)
  | [] => [[]]
  | c :: cs =>
      let r := splitCh sep cs
      if c == sep then [] :: r
      else
        match r with
        | a :: rest => (c :: a) :: rest
        | [] => [[c]]

def digitsValAux : List Char → Nat → Option Nat
  | [], acc => some acc
  | c :: cs, acc =>
      if 0x30 ≤ c.toNat && c.toNat ≤ 0x39 then
        digitsValAux cs (acc * 10 + (c.toNat - 0x30))
      else none

def digitsVal? (cs : List Char) : Option Nat :=
  if cs.isEmpty then none else digitsValAux cs 0

/-- Parse an ISO YYYY-MM-DD lexical form. -/
def parseYMD (cs : List Char) : Option (Nat × Nat × Nat) :=
  match splitCh (Char.ofNat 0x2d) cs with
  | [y, m, d] =>
      if y.length == 4 && m.length == 2 && d.length == 2 then
        match digitsVal? y, digitsVal? m, digitsVal? d with
        | some a, some b, some c =>
            if 1 ≤ b && b ≤ 12 && 1 ≤ c && c ≤ 31 then some (a, b, c) else none
        | _, _, _ => none
      else none
  | _ => none

/-- Parse an ISO hh:mm:ss lexical form. -/
def parseHMS (cs : List Char) : Option (Nat × Nat × Nat) :=
  match splitCh (Char.ofNat 0x3a) cs with
  | [h, m, s] =>
      if h.length == 2 && m.length == 2 && s.length == 2 then
        match digitsVal? h, digitsVal? m, digitsVal? s with
        | some a, some b, some c =>
            if a ≤ 23 && b ≤ 59 && c ≤ 59 then some (a, b, c) else none
        | _, _, _ => none
      else none
  | _ => none

/-- Parse an ISO date-T-time lexical form. -/
def parseYMDHMS (cs : List Char) : Option (Nat × Nat × Nat × Nat × Nat × Nat) :=
  match splitCh (Char.ofNat 0x54) cs with
  | [d, t] =>
      match parseYMD d, parseHMS t with
      | some (y, mo, dd), some (h, mi, s) => some (y, mo, dd, h, mi, s)
      | _, _ => none
  | _ => none

/-- Datatypes rdflib binds to non-str, non-date native Python objects; the
common ones suffice for this serializer's decisions. -/
def nonStrDatatypes : List String :=
  ["http://www.w3.org/2001/XMLSchema#integer",
   "http://www.w3.org/2001/XMLSchema#int",
   "http://www.w3.org/2001/XMLSchema#long",
   "http://www.w3.org/2001/XMLSchema#decimal",
   "http://www.w3.org/2001/XMLSchema#double",
   "http://www.w3.org/2001/XMLSchema#float",
   "http://www.w3.org/2001/XMLSchema#boolean"]

/-- Model of rdflib Literal.toPython: xsd:date / xsd:dateTime literals with
valid lexical forms become date / datetime objects; unconvertible literals
fall back to the literal itself (a str); bound numeric/boolean datatypes
become other non-str objects. -/
def toPython (t : String) (d : Option String) : PyVal :=
  match d with
  | some dt =>
      if dt == xsd_date_uri then
        match parseYMD t.data with
        | some (y, m, dd) => .pdate y m dd
        | none => .pstr t
      else if dt == xsd_dateTime_uri then
        match parseYMDHMS t.data with
        | some (y, mo, dd, h, mi, s) => .pdatetime y mo dd h mi s
        | none => .pstr t
      else if nonStrDatatypes.contains dt then .pother
      else .pstr t
  | none => .pstr t

/-- Model of dateutil.parser.parse on a string: the ISO lexical forms this
repository serializes parse; anything else raises ValueError (none). -/
def dateutilParse (s : String) : Option (Nat × Nat × Nat × Nat × Nat × Nat) :=
  match parseYMD s.data with
  | some (y, m, d) => some (y, m, d, 0, 0, 0)
  | none => parseYMDHMS s.data

def dayNames : List String :=
  ["Sunday", "Monday", "Tuesday", "Wednesday", "Thursday", "Friday", "Saturday"]

def monthNames : List String :=
  ["January", "February", "March", "April", "May", "June", "July",
   "August", "September", "October", "November", "December"]

/-- Sakamoto's day-of-week (0 = Sunday), as strftime %A needs. -/
def dayOfWeek (y m d : Nat) : Nat :=
  let t : List Nat := [0, 3, 2, 5, 0, 3, 5, 1, 4, 6, 2, 4]
  let y1 := if m < 3 then y - 1 else y
  (y1 + y1 / 4 - y1 / 100 + y1 / 400 + t.getD (m - 1) 0 + d) % 7

def pad2 (n : Nat) : String := if n < 10 then "0" ++ toString n else toString n

/-- strftime "%A, %d %B %Y". -/
def fmtDate (y m d : Nat) : String :=
  (dayNames.getD (dayOfWeek y m d) "") ++ ", " ++ pad2 d ++ " "
    ++ (monthNames.getD (m - 1) "") ++ " " ++ toString y

/-- strftime "%I:%M %p, %A, %d %B %Y". -/
def fmtDateTime (y mo d h mi : Nat) : String :=
  let h12 := if h % 12 == 0 then 12 else h % 12
  let ap := if h < 12 then "AM" else "PM"
  pad2 h12 ++ ":" ++ pad2 mi ++ " " ++ ap ++ ", " ++ fmtDate y mo d

/-- Python `a or b` over two optional node lookups. -/
def pyOr (a b : Option Node) : Option Node :=
  match a with
  | some x => if truthy x then some x else b
  | none => b

/-- The dtf attribute set: {'dtf': dtf} if dtf else {}. -/
def dtfAttr (dtf : Option Node) : List (String × String) :=
  match dtf with
  | some n => if truthy n then [("dtf", nodeStr n)] else []
  | none => []

/-- serialize_date.  Literal branch: toPython first; a str result becomes
the content, a date/datetime result is kept as dtf — and then handed to
dateutil.parser.parse, raising TypeError.  Resource branch: machine form
from time:inXSDDateTime or rdf:value, human form from the label priority
list; a parseable machine form is formatted according to its datatype. -/
def serialize_date (g : Graph) (entity : Node) (p : String) (name : String) :
    Except Err (List Event) :=
  match value g entity p with
  | some (.lit t d) =>
      match toPython t d with
      | .pstr s => if s == "" then .ok [] else .ok (textualElement name [] s)
      | .pdate _ _ _ => .error .typeError
      | .pdatetime _ _ _ _ _ _ => .error .typeError
      | .pother => .ok []
  | dtOpt =>
      let dtf := pyOr (valueOpt g dtOpt time_inXSDDateTime_uri)
                      (valueOpt g dtOpt rdf_value_uri)
      let content := pyFirstValue g dtOpt labels
      if !(dtf.any truthy || content.any truthy) then .ok []
      else if content.any truthy then
        .ok (textualElement name (dtfAttr dtf) (content.elim "" nodeStr))
      else
        match dtf with
        | none => .ok []
        | some dtfN =>
            match dateutilParse (nodeStr dtfN) with
            | none =>
                -- except ValueError: content = dtf
                .ok (textualElement name (dtfAttr dtf) (nodeStr dtfN))
            | some (y, mo, dd, h, mi, _s) => do
                let d ← datatypeOf dtfN
                let c :=
                  if d == some xsd_date_uri then some (fmtDate y mo dd)
                  else if d == some xsd_dateTime_uri then
                    some (fmtDateTime y mo dd h mi)
                  else none
                .ok (textualElement name (dtfAttr dtf) (c.getD ""))

/-! ### The lazy document assembler (serialize / generator)

A producer models one of the serializer's generator objects: each next()
call performs some writes to the stream and then either yields an item
(possibly a nested generator, to be pushed) or raises StopIteration (after
some final writes).  Both entry points drain the same explicit stack; they
differ only in that `generator` snapshots and resets the buffered stream
after every step and once more after the stack empties. -/

/-- A suspended producer: the write/yield steps and the writes performed by
the final next() that raises StopIteration.  A step's `none` item models a
yielded non-generator value (e.g. the None returned by a plain method). -/
inductive Gen where
  | mk (steps : List (String × Option Gen)) (final : String)

def Gen.steps : Gen → List (String × Option Gen)
  | .mk s _ => s

def Gen.final : Gen → String
  | .mk _ f => f

/-- A stack frame: the remaining steps of a producer and its final writes. -/
def Frame := List (String × Option Gen) × String

/-- One iteration of the drain loop: next(stack[-1]) either stops (pop,
emitting the final writes) or yields (emitting the step's writes, pushing a
yielded generator). -/
def drainStep : List Frame → Option (String × List Frame)
  | [] => none
  | (steps, fin) :: rest =>
      match steps with
      | [] => some (fin, rest)
      | (w, none) :: s1 => some (w, (s1, fin) :: rest)
      | (w, some p) :: s1 => some (w, (p.steps, p.final) :: (s1, fin) :: rest)

mutual

/-- Weight of a list of pending steps, counting nested producers. -/
def stepsW : List (String × Option Gen) → Nat
  | [] => 1
  | (_, none) :: rest => 2 + stepsW rest
  | (_, some p) :: rest => 2 + genW p + stepsW rest

/-- Weight of a producer. -/
def genW : Gen → Nat
  | .mk s _ => 1 + stepsW s

end

/-- Termination measure for draining: total weight of the pending steps on
the stack. -/
def stackW (st : List Frame) : Nat :=
  (st.map (fun f => stepsW f.1)).sum

theorem drainStep_stackW_lt {st : List Frame} {w : String} {st1 : List Frame}
    (h : drainStep st = some (w, st1)) : stackW st1 < stackW st := by
  match st with
  | [] => simp [drainStep] at h
  | (steps, fin) :: rest =>
    match steps with
    | [] =>
      simp only [drainStep] at h
      cases h
      simp only [stackW, List.map, List.sum_cons, stepsW]
      omega
    | (w0, none) :: s1 =>
      simp only [drainStep] at h
      cases h
      simp only [stackW, List.map, List.sum_cons, stepsW]
      omega
    | (w0, some p) :: s1 =>
      simp only [drainStep] at h
      cases h
      cases p with
      | mk ps pf =>
        simp only [stackW, List.map, List.sum_cons, stepsW, Gen.steps, Gen.final, genW]
        omega

/-- The blocking entry point: drain the stack to completion, writing every
chunk straight to the sink. -/
def serializeAux (st : List Frame) (acc : String) : String :=
  match h : drainStep st with
  | none => acc
  | some (w, st1) => serializeAux st1 (acc ++ w)
termination_by stackW st
decreasing_by exact drainStep_stackW_lt h

/-- The incremental entry point: after each drain step yield the buffer
written so far and reset it; after the loop, yield the (now empty) buffer
once more. -/
def generatorAux (st : List Frame) : List String :=
  match h : drainStep st with
  | none => [""]
  | some (w, st1) => w :: generatorAux st1
termination_by stackW st
decreasing_by exact drainStep_stackW_lt h

/-- stack = [self._serialize()]. -/
def startStack (p : Gen) : List Frame := [(p.steps, p.final)]

/-- XCRICAPSerializer.serialize: blocking serialization of the document
producer. -/
def serialize (p : Gen) : String := serializeAux (startStack p) ""

/-- XCRICAPSerializer.generator: incremental serialization, as the list of
yielded chunks. -/
def generator (p : Gen) : List String := generatorAux (startStack p)

/-- Concatenation of yielded chunks. -/
def concatAll : List String → String
  | [] => ""
  | s :: rest => s ++ concatAll rest

/-! ### The fragment re-emitter (serialize_etree) and descriptive elements -/

/-- An already-parsed markup subtree as lxml exposes it: qualified tag (in
Clark notation for namespaced elements), namespace prefix, in-scope
namespace map, attributes, leading text, and children each carrying their
trailing tail text. -/
inductive XTree where
  | mk (tag : String) (pfx : Option String) (nsmap : List (Option String × String))
       (attrib : List (String × String)) (text : Option String)
       (children : List (XTree × Option String))

def XTree.tag : XTree → String
  | .mk t _ _ _ _ _ => t

def XTree.pfx : XTree → Option String
  | .mk _ p _ _ _ _ => p

def XTree.nsmap : XTree → List (Option String × String)
  | .mk _ _ n _ _ _ => n

def XTree.attrib : XTree → List (String × String)
  | .mk _ _ _ a _ _ => a

def XTree.text : XTree → Option String
  | .mk _ _ _ _ t _ => t

def XTree.children : XTree → List (XTree × Option String)
  | .mk _ _ _ _ _ c => c

/-- The attribute name of a namespace declaration. -/
def nsAttrName : Option String → String
  | none => "xmlns"
  | some p => "xmlns:" ++ p

/-- xml.tag.split(closing-brace, 1)[-1]: the local part of a Clark-notation
tag, or the whole tag when it has no namespace part. -/
def tagLocal (cs : List Char) : String :=
  match cs with
  | [] => ""
  | c :: rest => if c.toNat == 0x7d then String.mk rest else tagLocal rest

def tagLocalStr (t : String) : String :=
  if t.data.any (fun c => c.toNat == 0x7d) then tagLocal t.data else t

/-- The tag as serialize_etree writes it. -/
def etreeTag (x : XTree) : String :=
  match x.pfx with
  | none => tagLocalStr x.tag
  | some p => p ++ ":" ++ tagLocalStr x.tag

/-- The attribute dict: a copy of xml.attrib plus one xmlns declaration for
every nsmap entry that differs from the ambient namespace context. -/
def etreeAttrib (x : XTree) (prev : List (Option String × String)) :
    List (String × String) :=
  x.nsmap.foldl
    (fun acc pu =>
      if prev.lookup pu.1 == some pu.2 then acc
      else setKey acc (nsAttrName pu.1) pu.2)
    x.attrib

/-- `if text: xg.characters(text)`. -/
def charsIf : Option String → List Event
  | some t => if t == "" then [] else [.chars t]
  | none => []

mutual

/-- serialize_etree: re-emit a parsed subtree, deduplicating namespace
declarations against the ambient context and recursing with the element's
own nsmap as the new context. -/
def serialize_etree : XTree → List (Option String × String) → List Event
  | .mk tag pfx nsmap attrib text children, prev =>
      [.startE (etreeTag (.mk tag pfx nsmap attrib text children))
               (etreeAttrib (.mk tag pfx nsmap attrib text children) prev)]
      ++ charsIf text
      ++ etreeChildren children nsmap
      ++ [.endE (etreeTag (.mk tag pfx nsmap attrib text children))]

/-- The child loop of serialize_etree: each child recursively, followed by
its tail text. -/
def etreeChildren : List (XTree × Option String) → List (Option String × String) →
    List Event
  | [], _ => []
  | (c, tl) :: rest, ns => serialize_etree c ns ++ charsIf tl ++ etreeChildren rest ns

end

/-- The ambient namespace context self.xmlns handed to serialize_etree. -/
def XMLNSopt : List (Option String × String) := XMLNS.map (fun ku => (some ku.1, ku.2))

/-- The external fragment parsers (etree.fromstring with the XML and HTML
parsers); a parse failure is a propagating error. -/
structure Ext where
  px : String → Except Err XTree
  ph : String → Except Err XTree

/-- descriptive_text_element: href element for resources, re-emitted parsed
fragment for XHTML/HTML-typed literals, plain text otherwise.  Reading
.datatype of a BNode raises AttributeError, as in the source. -/
def descriptive_text_element (ext : Ext) (name : String) (obj : Node)
    (attrib : List (String × String)) : Except Err (List Event) :=
  match obj with
  | .uri s => .ok [.startE name [("href", s)], .endE name]
  | _ => do
      let d ← datatypeOf obj
      if d == some xtypes_fragXHTML_uri then do
        let xml ← ext.px (nodeStr obj)
        .ok ([.startE name attrib] ++ serialize_etree xml XMLNSopt ++ [.endE name])
      else if d == some xtypes_fragHTML_uri then do
        let xml ← ext.ph (nodeStr obj)
        .ok ([.startE name attrib] ++ serialize_etree xml XMLNSopt ++ [.endE name])
      else .ok (textualElement name attrib (nodeStr obj))

/-- serialize_description: first-match over the description predicates with
the rich markup rule. -/
def serialize_description (ext : Ext) (g : Graph) (entity : Node) :
    Except Err (List Event) :=
  match (descriptions.flatMap (objects g entity)).head? with
  | some obj => descriptive_text_element ext "dc:description" obj []
  | none => .ok []

/-- serialize_common: identifiers, title, url, description. -/
def serialize_common (ext : Ext) (g : Graph) (entity : Node) :
    Except Err (List Event) := do
  let a ← serialize_identifiers g entity
  let d ← serialize_description ext g entity
  .ok (a ++ serialize_title g entity ++ serialize_url g entity ++ d)

/-- venue_element: an xcri:venue wrapping a nested xcri:provider that holds
the venue's common fields and location. -/
def venue_element (ext : Ext) (g : Graph) (venue : Node) (fuel : Nat) :
    Except Err (List Event) := do
  let common ← serialize_common ext g venue
  let loc ← serialize_location g venue fuel
  .ok ([.startE "xcri:venue" [], .startE "xcri:provider" []]
       ++ common ++ loc
       ++ [.endE "xcri:provider", .endE "xcri:venue"])

/-- Reduction of a successful Except bind. -/
theorem ok_bind {α β : Type} (a : α) (f : α → Except Err β) :
    (Except.ok a >>= f : Except Err β) = f a := rfl

/-- Reduction of a pure Except bind. -/
theorem pure_bind_exc {α β : Type} (a : α) (f : α → Except Err β) :
    ((pure a : Except Err α) >>= f) = f a := rfl

/-- Propagation of a failed Except bind. -/
theorem err_bind {α β : Type} (e : Err) (f : α → Except Err β) :
    (Except.error e >>= f : Except Err β) = .error e := rfl

/-! ## Lemmas about the location walk -/

theorem chainState_front (g : Graph) (cur : Node) (k : Nat) :
    chainState g cur (k + 1) =
      (if truthy cur then
        match value g cur spatial_within_uri with
        | some nx => chainState g nx k
        | none => none
      else none) := by
  induction k generalizing cur with
  | zero =>
      by_cases h : truthy cur <;>
        cases hv : value g cur spatial_within_uri <;>
          simp [chainState, h, hv]
  | succ k ih =>
      show (match chainState g cur (k + 1) with
            | none => none
            | some c => if truthy c then value g c spatial_within_uri else none) = _
      rw [ih cur]
      by_cases h : truthy cur
      · cases hv : value g cur spatial_within_uri with
        | none => simp [h, hv]
        | some nx =>
            simp only [h, hv, if_true]
            rfl
      · simp [h]

theorem locLoop_term_of_dead (g : Graph) (entity : Node) :
    ∀ k cur fuel, (chainState g cur k).any truthy = false → k < fuel →
      ∃ r, locLoop g entity cur fuel = some r := by
  intro k
  induction k with
  | zero =>
      intro cur fuel hdead hfuel
      match fuel, hfuel with
      | f + 1, _ =>
        simp only [chainState, Option.any_some] at hdead
        exact ⟨none, by simp [locLoop, hdead]⟩
  | succ k ih =>
      intro cur fuel hdead hfuel
      match fuel, hfuel with
      | f + 1, hfuel =>
        by_cases ht : truthy cur
        · by_cases ha : (value g entity v_adr_uri).any truthy
          · exact ⟨value g entity v_adr_uri, by simp [locLoop, ht, ha]⟩
          · rw [chainState_front, if_pos ht] at hdead
            cases hv : value g cur spatial_within_uri with
            | none => exact ⟨none, by simp [locLoop, ht, ha, hv]⟩
            | some nx =>
                rw [hv] at hdead
                obtain ⟨r, hr⟩ := ih nx f hdead (Nat.lt_of_succ_lt_succ hfuel)
                exact ⟨r, by simp [locLoop, ht, ha, hv, hr]⟩
        · exact ⟨none, by simp [locLoop, ht]⟩

theorem locLoop_diverges (g : Graph) (entity : Node)
    (hA : (value g entity v_adr_uri).any truthy = false) :
    ∀ fuel cur, (∀ n, (chainState g cur n).any truthy = true) →
      locLoop g entity cur fuel = none := by
  intro fuel
  induction fuel with
  | zero => intro cur _; rfl
  | succ f ih =>
      intro cur halive
      have ht : truthy cur = true := by
        have h0 := halive 0
        simpa [chainState] using h0
      have h1 := halive 1
      rw [chainState_front, if_pos ht] at h1
      cases hv : value g cur spatial_within_uri with
      | none => rw [hv] at h1; simp at h1
      | some nx =>
          rw [hv] at h1
          have hnx : ∀ n, (chainState g nx n).any truthy = true := by
            intro n
            have h := halive (n + 1)
            rw [chainState_front, if_pos ht, hv] at h
            exact h
          simp only [locLoop, ht, hA, if_true, if_false, Bool.false_eq_true, hv]
          exact ih nx hnx

/-! ## Claim C10 -/

/-- C10: serialize_location terminates for every entity that bears a direct
truthy v:adr address (part 1) or whose within chain dies out — reaches a
missing or falsy continuation — after finitely many steps (part 2); and when
the entity has no direct address and the chain stays alive forever (a cycle
in a finite graph), the walk loop runs out of any amount of fuel (part 3). -/
theorem serialize_location_termination :
    (∀ (g : Graph) (e a : Node) (fuel : Nat), truthy e = true →
      value g e v_adr_uri = some a → truthy a = true → 1 ≤ fuel →
      ∃ evs, serialize_location g e fuel = .ok evs) ∧
    (∀ (g : Graph) (e : Node) (k fuel : Nat),
      (chainState g e k).any truthy = false → k < fuel →
      ∃ evs, serialize_location g e fuel = .ok evs) ∧
    (∀ (g : Graph) (e : Node), (value g e v_adr_uri).any truthy = false →
      (∀ n, (chainState g e n).any truthy = true) →
      ∀ fuel, serialize_location g e fuel = .error .fuel) := by
  refine ⟨?_, ?_, ?_⟩
  · intro g e a fuel he hv ha hfuel
    match fuel, hfuel with
    | f + 1, _ =>
      have hloop : locLoop g e e (f + 1) = some (some a) := by
        simp [locLoop, he, hv, ha]
      rw [serialize_location, hloop]
      by_cases h : address_elements.any (fun pe => (value g a pe.1).any truthy) <;>
        simp [h]
  · intro g e k fuel hdead hfuel
    obtain ⟨r, hr⟩ := locLoop_term_of_dead g e k e fuel hdead hfuel
    rw [serialize_location, hr]
    cases r with
    | none => exact ⟨[], rfl⟩
    | some a =>
        by_cases h : address_elements.any (fun pe => (value g a pe.1).any truthy) <;>
          simp [h]
  · intro g e hA halive fuel
    rw [serialize_location, locLoop_diverges g e hA fuel e halive]

def eTermA : Node := .uri "http://example.org/venueA"
def adrTermA : Node := .blank "adrA"
def gTermA : Graph :=
  [(eTermA, v_adr_uri, adrTermA), (adrTermA, v_street_uri, .lit "2 New Road" none)]
def eTermB : Node := .uri "http://example.org/venueB"
def eCyc : Node := .uri "http://example.org/cyclic"
def gCyc : Graph := [(eCyc, spatial_within_uri, eCyc)]

/-- Witness for C10: a venue with a direct address terminates with fuel 1; a
venue with no facts terminates with fuel 2; a self-looping within chain with
no address exhausts every amount of fuel. -/
theorem serialize_location_termination_witness :
    (∃ evs, serialize_location gTermA eTermA 1 = .ok evs) ∧
    (∃ evs, serialize_location ([] : Graph) eTermB 2 = .ok evs) ∧
    (∀ fuel, serialize_location gCyc eCyc fuel = .error .fuel) := by
  refine ⟨?_, ?_, ?_⟩
  · exact serialize_location_termination.1 gTermA eTermA adrTermA 1
      (by decide) (by decide) (by decide) (by decide)
  · exact serialize_location_termination.2.1 ([] : Graph) eTermB 1 2
      (by decide) (by decide)
  · have hch : ∀ n, chainState gCyc eCyc n = some eCyc := by
      intro n
      induction n with
      | zero => rfl
      | succ n ih =>
          show (match chainState gCyc eCyc n with
                | none => none
                | some c => if truthy c then value gCyc c spatial_within_uri else none) = _
          rw [ih]
          decide
    exact serialize_location_termination.2.2 gCyc eCyc (by decide)
      (fun n => by rw [hch n]; decide)

/-! ## Claim C1 -/

def e1C1 : Node := .uri "http://example.org/e1"
def e2C1 : Node := .uri "http://example.org/e2"
def adrC1 : Node := .blank "addr1"

/-- A graph where the starting entity has no address, but the entity it is
spatially within bears an address with a populated street component. -/
def gC1 : Graph :=
  [(e1C1, spatial_within_uri, e2C1),
   (e2C1, v_adr_uri, adrC1),
   (adrC1, v_street_uri, .lit "1 High Street" none)]

/-- C1 (the code at the failing input): the starting entity is within-linked
to an entity bearing a populated address, yet serialize_location emits
nothing, because the loop queries the STARTING entity for v:adr on every
iteration instead of the visited entity.  The claim (and the spec's walk
description) says the address found on the containing entity is serialized. -/
theorem serialize_location_ignores_chain_addresses :
    value gC1 e1C1 spatial_within_uri = some e2C1 ∧
    value gC1 e2C1 v_adr_uri = some adrC1 ∧
    value gC1 adrC1 v_street_uri = some (.lit "1 High Street" none) ∧
    value gC1 e1C1 v_adr_uri = none ∧
    serialize_location gC1 e1C1 4 = .ok [] := by
  refine ⟨by decide, by decide, by decide, by decide, ?_⟩
  rfl

/-! ## Claim C7 -/

def c7uri : String := "http://xcri.org/profiles/1.2/catalog/termsX"

/-- C7 (the code at the failing input): a URI that starts with both the xcri
catalog namespace URI and the longer xcriterms namespace URI, with valid
local parts for each.  The claimed behaviour would return
xcriterms:X.  Because INVERSE_XMLNS holds (prefix, uri) pairs which xsi_type
unpacks as (ns, prefix), the known-namespace loop compares the URI against
the short prefix strings, never matches, and the suffix scan synthesizes a
fresh ns declaration instead. -/
theorem xsi_type_known_namespaces_never_match :
    c7uri = "http://xcri.org/profiles/1.2/catalog/terms" ++ "X" ∧
    "http://xcri.org/profiles/1.2/catalog".data.isPrefixOf c7uri.data = true ∧
    "http://xcri.org/profiles/1.2/catalog/terms".data.isPrefixOf c7uri.data = true ∧
    is_localpart ("X".data) = true ∧
    is_localpart ("/termsX".data) = false ∧
    xsi_type c7uri =
      [("xsi:type", "ns:termsX"),
       ("xmlns:ns", "http://xcri.org/profiles/1.2/catalog/")] := by
  refine ⟨by decide, by decide, by decide, by decide, by decide, ?_⟩
  decide

/-! ## Claim C8 -/

theorem notationElems_missing_datatype {g : Graph} {t : String} :
    ∀ l : List Node, Node.lit t none ∈ l →
      notationElems g l = .error .attributeError := by
  intro l
  induction l with
  | nil => intro h; cases h
  | cons obj rest ih =>
      intro hmem
      rcases List.mem_cons.mp hmem with heq | hrest
      · subst heq
        rfl
      · show (do
            let d ← datatypeOf obj
            let attrib ← xsiTypePy d
            let tail ← notationElems g rest
            if attrib.isEmpty then Except.ok tail
            else Except.ok (textualElement "dc:identifier" attrib (nodeStr obj) ++ tail))
          = Except.error Err.attributeError
        cases obj with
        | lit t0 d0 =>
            cases d0 with
            | none => rfl
            | some u =>
                show (Except.ok (xsi_type u) >>= fun attrib =>
                  notationElems g rest >>= fun tail =>
                  if attrib.isEmpty then Except.ok tail
                  else Except.ok (textualElement "dc:identifier" attrib
                    (nodeStr (Node.lit t0 (some u))) ++ tail)) = _
                rw [ih hrest]
                rfl
        | uri s => rfl
        | blank s => rfl

/-- C8: an entity bearing a skos:notation whose datatype is absent makes
serialize_identifiers raise (xsi_type receives Python None and the first
startswith call fails with AttributeError), rather than silently skipping
the identifier element. -/
theorem serialize_identifiers_raises_on_untyped_notn
    (g : Graph) (e : Node) (t : String)
    (h : Node.lit t none ∈ objects g e skos_notation_uri) :
    serialize_identifiers g e = .error .attributeError := by
  rw [serialize_identifiers]
  rw [notationElems_missing_datatype (objects g e skos_notation_uri) h]
  rfl

def e8 : Node := .uri "http://example.org/course8"
def g8 : Graph := [(e8, skos_notation_uri, .lit "X900" none)]

/-- Witness for C8. -/
theorem serialize_identifiers_raises_on_untyped_notn_witness :
    serialize_identifiers g8 e8 = .error .attributeError :=
  serialize_identifiers_raises_on_untyped_notn g8 e8 "X900" (by decide)

/-! ## Claim C2 -/

def presD2 : Node := .uri "http://example.org/presD"
def presT2 : Node := .uri "http://example.org/presT"
def presS2 : Node := .uri "http://example.org/presS"
def presR2 : Node := .uri "http://example.org/presR"
def bnR2 : Node := .blank "interval"

/-- Presentations whose mlo:start is an xsd:date literal, an xsd:dateTime
literal, a plain unparseable literal, and a resource with a nested
time:inXSDDateTime literal. -/
def gC2 : Graph :=
  [(presD2, mlo_start_uri, .lit "2024-03-15" (some xsd_date_uri)),
   (presT2, mlo_start_uri, .lit "2024-03-15T14:30:00" (some xsd_dateTime_uri)),
   (presS2, mlo_start_uri, .lit "sometime next year" none),
   (presR2, mlo_start_uri, bnR2),
   (bnR2, time_inXSDDateTime_uri, .lit "2024-03-15" (some xsd_date_uri))]

/-- C2 (the code at the failing inputs): a well-formed xsd:date or
xsd:dateTime literal is converted by toPython into a date/datetime object,
which the source then feeds to dateutil.parser.parse — a TypeError, not the
claimed formatted output.  Only the unparseable-literal part of the claim
holds (verbatim text, no dtf attribute).  The %A/%I:%M formatting path is
reachable only through the resource branch, where it does produce the
claimed strings. -/
theorem serialize_date_crashes_on_typed_date_literals :
    toPython "2024-03-15" (some xsd_date_uri) = .pdate 2024 3 15 ∧
    serialize_date gC2 presD2 mlo_start_uri "mlo:start" = .error .typeError ∧
    toPython "2024-03-15T14:30:00" (some xsd_dateTime_uri) =
      .pdatetime 2024 3 15 14 30 0 ∧
    serialize_date gC2 presT2 mlo_start_uri "mlo:start" = .error .typeError ∧
    serialize_date gC2 presS2 mlo_start_uri "mlo:start" =
      .ok (textualElement "mlo:start" [] "sometime next year") ∧
    fmtDate 2024 3 15 = "Friday, 15 March 2024" ∧
    fmtDateTime 2024 3 15 14 30 = "02:30 PM, Friday, 15 March 2024" ∧
    serialize_date gC2 presR2 mlo_start_uri "mlo:start" =
      .ok (textualElement "mlo:start" [("dtf", "2024-03-15")] "Friday, 15 March 2024") := by
  refine ⟨by decide, by rfl, by decide, by rfl, by rfl, by decide, by decide, by rfl⟩

/-! ## Claim C3 -/

def presC3 : Node := .uri "http://example.org/pres3"
def valC3 : Node := .uri "http://example.org/fullTimeTerm"

/-- A presentation whose studyMode value node carries a notation under the
WRONG scheme, together with a resolvable prefLabel. -/
def gC3 : Graph :=
  [(presC3, xcri_studyMode_uri, valC3),
   (valC3, skos_notation_uri, .lit "FT" (some "http://example.org/wrongScheme")),
   (valC3, skos_prefLabel_uri, .lit "Full time" none)]

/-- C3 counterexample: with a wrong-scheme notation and a present label, an
xcri:studyMode element IS emitted (with the label as text and no identifier
attribute) — the claim says no element for that vocabulary is emitted. -/
theorem cv_wrong_scheme_with_label_still_emits :
    serialize_controlled_vocabularies gC3 presC3 =
      .ok (textualElement "xcri:studyMode" [] "Full time") := by
  rfl

/-- C3 as amended: a notation under the wrong scheme is discarded (so no
identifier attribute appears), but the element is still emitted whenever a
label is resolvable; emission is suppressed only when neither a
correct-scheme notation nor a label is found. -/
theorem cv_wrong_scheme_drops_identifier_only
    (g : Graph) (p v nt c : Node) (w : String)
    (hval : value g p xcri_studyMode_uri = some v) (hv : truthy v = true)
    (hnots : objects g v skos_notation_uri = [nt])
    (hd : datatypeOf nt = .ok (some w))
    (hw : (w == "http://xcri.org/profiles/catalog/1.2/studyMode/notation") = false)
    (hc : pyFirstValue g (some v) labels = some c) (hct : truthy c = true)
    (hm1 : value g p xcri_attendanceMode_uri = none)
    (hm2 : value g p xcri_attendancePattern_uri = none) :
    serialize_controlled_vocabularies g p =
      .ok (textualElement "xcri:studyMode" [] (nodeStr c)) := by
  have hnote : findSchemeNotn g
      "http://xcri.org/profiles/catalog/1.2/studyMode/notation"
      (objects g v skos_notation_uri) = .ok none := by
    rw [hnots]
    show (do
      let d ← datatypeOf nt
      if d == some "http://xcri.org/profiles/catalog/1.2/studyMode/notation" then
        Except.ok (some nt)
      else findSchemeNotn g "http://xcri.org/profiles/catalog/1.2/studyMode/notation" []) = _
    rw [hd, ok_bind]
    have hne : w ≠ "http://xcri.org/profiles/catalog/1.2/studyMode/notation" := by
      simpa using hw
    simp [hne, findSchemeNotn]
  show cvAll g p controlled_vocabularies = _
  simp only [controlled_vocabularies, cvAll, cvEntry, hval, hv, hm1, hm2, hnote, hc]
  simp [ok_bind, hct]

def gW3 : Graph := gC3

/-- Witness for the amended C3. -/
theorem cv_wrong_scheme_drops_identifier_only_witness :
    serialize_controlled_vocabularies gW3 presC3 =
      .ok (textualElement "xcri:studyMode" [] (nodeStr (.lit "Full time" none))) :=
  cv_wrong_scheme_drops_identifier_only gW3 presC3 valC3
    (.lit "FT" (some "http://example.org/wrongScheme")) (.lit "Full time" none)
    "http://example.org/wrongScheme"
    (by decide) (by decide) (by decide) (by rfl) (by decide) (by decide)
    (by decide) (by decide) (by decide)

/-! ## Claim C4 -/

theorem mem_setAddN {l : List Node} {x y : Node} :
    y ∈ setAddN l x ↔ y ∈ l ∨ y = x := by
  unfold setAddN
  by_cases h : x ∈ l
  · simp only [h, if_true]
    constructor
    · exact fun hy => Or.inl hy
    · rintro (hy | rfl)
      · exact hy
      · exact h
  · simp [h]

theorem mem_setUpd {xs : List Node} :
    ∀ {l : List Node} {y : Node}, y ∈ setUpd l xs ↔ y ∈ l ∨ y ∈ xs := by
  induction xs with
  | nil => intro l y; simp [setUpd]
  | cons x xs ih =>
      intro l y
      show y ∈ setUpd (setAddN l x) xs ↔ _
      rw [ih, mem_setAddN]
      simp [or_assoc]

theorem setUpd_append (l a b : List Node) :
    setUpd l (a ++ b) = setUpd (setUpd l a) b := by
  unfold setUpd
  exact List.foldl_append _ _ _ _

theorem mem_foldl_setUpd (F : Node → List Node) :
    ∀ (l init : List Node) (y : Node),
      y ∈ l.foldl (fun acc s => setUpd acc (F s)) init ↔
        y ∈ init ∨ ∃ s, s ∈ l ∧ y ∈ F s := by
  intro l
  induction l with
  | nil => intro init y; simp
  | cons a l ih =>
      intro init y
      show y ∈ l.foldl (fun acc s => setUpd acc (F s)) (setUpd init (F a)) ↔ _
      rw [ih, mem_setUpd]
      constructor
      · rintro ((h | h) | ⟨s, hs, hy⟩)
        · exact Or.inl h
        · exact Or.inr ⟨a, List.mem_cons_self a l, h⟩
        · exact Or.inr ⟨s, List.mem_cons_of_mem a hs, hy⟩
      · rintro (h | ⟨s, hs, hy⟩)
        · exact Or.inl (Or.inl h)
        · rcases List.mem_cons.mp hs with rfl | hs
          · exact Or.inl (Or.inr hy)
          · exact Or.inr ⟨s, hs, hy⟩

/-- The direct subject-classification values of a course. -/
def directSubjects (g : Graph) (course : Node) : List Node :=
  subject_predicates.flatMap (objects g course)

/-- One broadening step: nodes pointing to s via narrower, plus the broader
objects of s. -/
def broadenStep (g : Graph) (s : Node) : List Node :=
  subjectsOf g skos_narrower_uri s ++ objects g s skos_broader_uri

/-- C4 as amended: the serialized subject set is NOT a transitive closure.
It is exactly: the direct subjects, plus one broader/inverse-narrower step
from each direct subject, plus one related step from each member of that
set — with no further iteration. -/
theorem subjectNodes_single_pass_characterization (g : Graph) (c x : Node) :
    x ∈ subjectNodes g c ↔
      (x ∈ directSubjects g c ∨ ∃ s, s ∈ directSubjects g c ∧ x ∈ broadenStep g s) ∨
      ∃ s, (s ∈ directSubjects g c ∨
            ∃ s0, s0 ∈ directSubjects g c ∧ s ∈ broadenStep g s0) ∧
           x ∈ objects g s skos_related_uri := by
  have hfun : (fun acc s =>
      setUpd (setUpd acc (subjectsOf g skos_narrower_uri s)) (objects g s skos_broader_uri)) =
      (fun acc s => setUpd acc (broadenStep g s)) := by
    funext acc s
    rw [broadenStep, setUpd_append]
  show x ∈ (let d := setUpd [] (subject_predicates.flatMap (objects g c));
    let s1 := d.foldl (fun acc s =>
      setUpd (setUpd acc (subjectsOf g skos_narrower_uri s)) (objects g s skos_broader_uri)) d;
    s1.foldl (fun acc s => setUpd acc (objects g s skos_related_uri)) s1) ↔ _
  simp only [hfun]
  rw [mem_foldl_setUpd (fun s => objects g s skos_related_uri)]
  have hd : ∀ y : Node, y ∈ setUpd [] (subject_predicates.flatMap (objects g c)) ↔
      y ∈ directSubjects g c := by
    intro y
    rw [mem_setUpd]
    simp [directSubjects]
  have hs1 : ∀ y : Node,
      y ∈ (setUpd [] (subject_predicates.flatMap (objects g c))).foldl
            (fun acc s => setUpd acc (broadenStep g s))
            (setUpd [] (subject_predicates.flatMap (objects g c))) ↔
        y ∈ directSubjects g c ∨ ∃ s, s ∈ directSubjects g c ∧ y ∈ broadenStep g s := by
    intro y
    rw [mem_foldl_setUpd (broadenStep g)]
    constructor
    · rintro (h | ⟨s, hs, hy⟩)
      · exact Or.inl ((hd y).mp h)
      · exact Or.inr ⟨s, (hd s).mp hs, hy⟩
    · rintro (h | ⟨s, hs, hy⟩)
      · exact Or.inl ((hd y).mpr h)
      · exact Or.inr ⟨s, (hd s).mpr hs, hy⟩
  constructor
  · rintro (h | ⟨s, hs, hy⟩)
    · exact Or.inl ((hs1 x).mp h)
    · exact Or.inr ⟨s, (hs1 s).mp hs, hy⟩
  · rintro (h | ⟨s, hs, hy⟩)
    · exact Or.inl ((hs1 x).mpr h)
    · exact Or.inr ⟨s, (hs1 s).mpr hs, hy⟩

def crsC4 : Node := .uri "http://example.org/course4"
def s1C4 : Node := .uri "http://example.org/subjA"
def s2C4 : Node := .uri "http://example.org/subjB"
def s3C4 : Node := .uri "http://example.org/subjC"

/-- A two-step broader chain from the course's one direct subject. -/
def gC4 : Graph :=
  [(crsC4, dcterms_subject_uri, s1C4),
   (s1C4, skos_broader_uri, s2C4),
   (s2C4, skos_broader_uri, s3C4)]

/-- C4 counterexample: s3 is connected to the direct subject s1 by a finite
chain of broader links (two steps), so the claimed transitive closure
contains it, but the serialized set stops after one broadening pass and
omits it. -/
theorem subjectNodes_not_transitive_cex :
    (s1C4, skos_broader_uri, s2C4) ∈ gC4 ∧
    (s2C4, skos_broader_uri, s3C4) ∈ gC4 ∧
    subjectNodes gC4 crsC4 = [s1C4, s2C4] ∧
    s3C4 ∉ subjectNodes gC4 crsC4 := by
  refine ⟨by decide, by decide, by rfl, by decide⟩

/-! ## Claim C6 -/

def crsC6 : Node := .uri "http://example.org/course6"
def subjC6 : Node := .uri "http://example.org/subj6"

/-- A course whose one subject carries a notation whose datatype has no
valid local-name suffix (so compact-name resolution yields nothing) and no
label. -/
def gC6 : Graph :=
  [(crsC6, dcterms_subject_uri, subjC6),
   (subjC6, skos_notation_uri, .lit "N31" (some "http://example.com/123"))]

/-- C6 counterexample: the subject has no usable type attribute (xsi_type
of its notation's datatype is empty) and no label, yet a dc:subject element
IS emitted, carrying only the identifier attribute and empty text — exactly
the output the claim says is never produced. -/
theorem subject_with_identifier_only_emitted :
    xsi_type "http://example.com/123" = [] ∧
    pyFirstValue gC6 (some subjC6) labels = none ∧
    serialize_subjects gC6 crsC6 =
      .ok (textualElement "dc:subject" [("identifier", "N31")] "") := by
  refine ⟨by decide, by decide, by rfl⟩

/-- C6 as amended: a resource subject is silently skipped only when it has
no truthy notation at all, no JACS-prefixed identifier, and no truthy label;
when a notation exists, its identifier attribute alone makes the element
emitted even though type and label are unresolvable. -/
theorem subjectEntry_skips_only_bare_subjects (g : Graph) (u : String)
    (hn : (value g (.uri u) skos_notation_uri).any truthy = false)
    (hj : jacsBase.data.isPrefixOf u.data = false)
    (hl : (pyFirstValue g (some (.uri u)) labels).any truthy = false) :
    subjectEntry g (.uri u) = .ok [] := by
  simp only [subjectEntry]
  cases hv : value g (.uri u) skos_notation_uri with
  | none => simp [pure_bind_exc, nodeStr, hj, hl]
  | some n =>
      rw [hv] at hn
      have hnt : truthy n = false := by simpa using hn
      simp [pure_bind_exc, nodeStr, hj, hl, hnt]

def bareC6 : Node := .uri "http://example.org/bareSubject"

/-- Witness for the amended C6. -/
theorem subjectEntry_skips_only_bare_subjects_witness :
    subjectEntry ([] : Graph) bareC6 = .ok [] :=
  subjectEntry_skips_only_bare_subjects ([] : Graph) "http://example.org/bareSubject"
    (by decide) (by decide) (by decide)

/-! ## Claim C5 -/

theorem serializeAux_eq : ∀ (n : Nat) (st : List Frame) (acc : String),
    stackW st ≤ n → serializeAux st acc = acc ++ concatAll (generatorAux st) := by
  intro n
  induction n with
  | zero =>
      intro st acc hle
      rw [serializeAux, generatorAux]
      cases hd : drainStep st with
      | none => simp [concatAll]
      | some p =>
          exact absurd (Nat.lt_of_lt_of_le (drainStep_stackW_lt hd) hle)
            (Nat.not_lt_zero _)
  | succ n ih =>
      intro st acc hle
      rw [serializeAux, generatorAux]
      cases hd : drainStep st with
      | none => simp [concatAll]
      | some p =>
          obtain ⟨w, st1⟩ := p
          have hlt := drainStep_stackW_lt hd
          show serializeAux st1 (acc ++ w) = acc ++ concatAll (w :: generatorAux st1)
          rw [ih st1 (acc ++ w) (by omega)]
          show (acc ++ w) ++ concatAll (generatorAux st1) =
            acc ++ (w ++ concatAll (generatorAux st1))
          rw [String.append_assoc]

/-- C5: for any producer — in particular the one _serialize() builds for a
given graph and catalog root, which is what both entry points drain — the
concatenation of the chunks yielded by the incremental entry point equals
exactly the string the blocking entry point writes. -/
theorem generator_serialize_byte_identical (p : Gen) :
    concatAll (generator p) = serialize p := by
  rw [generator, serialize,
    serializeAux_eq (stackW (startStack p)) (startStack p) "" (Nat.le_refl _)]
  simp

/-! ## Claim C9: balanced event streams and element children -/

/-- Well-nested writer-call streams, as a Dyck grammar. -/
inductive Bal : List Event → Prop where
  | nil : Bal []
  | txt (s : String) (l : List Event) : Bal l → Bal (.chars s :: l)
  | node (n : String) (a : List (String × String)) (inner rest : List Event) :
      Bal inner → Bal rest → Bal (.startE n a :: (inner ++ .endE n :: rest))

theorem Bal.append : ∀ {l m : List Event}, Bal l → Bal m → Bal (l ++ m) := by
  intro l m hl hm
  induction hl with
  | nil => simpa
  | txt s l hb ih => exact Bal.txt s _ ih
  | node n a inner rest hbi hbr ih1 ih2 =>
      have hsh : (Event.startE n a :: (inner ++ .endE n :: rest)) ++ m =
          Event.startE n a :: (inner ++ .endE n :: (rest ++ m)) := by
        simp
      rw [hsh]
      exact Bal.node n a inner (rest ++ m) hbi ih2

theorem bal_textual (n : String) (a : List (String × String)) (c : String) :
    Bal (textualElement n a c) := by
  have h := Bal.node n a [.chars c] [] (Bal.txt c [] Bal.nil) Bal.nil
  simpa [textualElement] using h

theorem bal_charsIf (o : Option String) : Bal (charsIf o) := by
  cases o with
  | none => exact Bal.nil
  | some t =>
      rw [charsIf]
      split
      · exact Bal.nil
      · exact Bal.txt t [] Bal.nil

theorem bal_flatMap {α : Type} (f : α → List Event) (l : List α)
    (hf : ∀ a, Bal (f a)) : Bal (l.flatMap f) := by
  induction l with
  | nil => exact Bal.nil
  | cons a l ih =>
      show Bal (f a ++ l.flatMap f)
      exact Bal.append (hf a) ih

mutual

/-- Weight of a parsed subtree, for induction. -/
def xtW : XTree → Nat
  | .mk _ _ _ _ _ children => 1 + xtlW children

/-- Weight of a child list. -/
def xtlW : List (XTree × Option String) → Nat
  | [] => 0
  | (c, _) :: rest => 1 + xtW c + xtlW rest

end

theorem bal_etree_rec : ∀ N : Nat,
    (∀ (x : XTree) (prev : List (Option String × String)), xtW x ≤ N →
      Bal (serialize_etree x prev)) ∧
    (∀ (cs : List (XTree × Option String)) (ns : List (Option String × String)),
      xtlW cs ≤ N → Bal (etreeChildren cs ns)) := by
  intro N
  induction N using Nat.strong_induction_on with
  | _ N ih =>
    constructor
    · intro x prev hle
      obtain ⟨tag, pfx, nsmap, attrib, text, children⟩ := x
      rw [serialize_etree]
      have hch : Bal (etreeChildren children nsmap) := by
        have hw : xtW (.mk tag pfx nsmap attrib text children) = 1 + xtlW children := by
          rw [xtW]
        have hlt : xtlW children < N := by omega
        exact (ih (xtlW children) hlt).2 children nsmap (Nat.le_refl _)
      have hin : Bal (charsIf text ++ etreeChildren children nsmap) :=
        Bal.append (bal_charsIf text) hch
      have h := Bal.node (etreeTag (.mk tag pfx nsmap attrib text children))
        (etreeAttrib (.mk tag pfx nsmap attrib text children) prev)
        (charsIf text ++ etreeChildren children nsmap) [] hin Bal.nil
      simpa using h
    · intro cs ns hle
      cases cs with
      | nil => rw [etreeChildren]; exact Bal.nil
      | cons head rest =>
          obtain ⟨c, tl⟩ := head
          rw [etreeChildren]
          have hw : xtlW ((c, tl) :: rest) = 1 + xtW c + xtlW rest := by rw [xtlW]
          have h1 : Bal (serialize_etree c ns) := by
            have hlt : xtW c < N := by omega
            exact (ih (xtW c) hlt).1 c ns (Nat.le_refl _)
          have h3 : Bal (etreeChildren rest ns) := by
            have hlt : xtlW rest < N := by omega
            exact (ih (xtlW rest) hlt).2 rest ns (Nat.le_refl _)
          exact Bal.append (Bal.append h1 (bal_charsIf tl)) h3

theorem bal_serialize_etree (x : XTree) (prev : List (Option String × String)) :
    Bal (serialize_etree x prev) :=
  (bal_etree_rec (xtW x)).1 x prev (Nat.le_refl _)

theorem bal_notationElems (g : Graph) : ∀ (l : List Node) (evs : List Event),
    notationElems g l = .ok evs → Bal evs := by
  intro l
  induction l with
  | nil =>
      intro evs h
      injection h with h
      subst h
      exact Bal.nil
  | cons obj rest ih =>
      intro evs h
      simp only [notationElems] at h
      cases hdt : datatypeOf obj with
      | error e => rw [hdt, err_bind] at h; cases h
      | ok d =>
          rw [hdt, ok_bind] at h
          cases hxt : xsiTypePy d with
          | error e => rw [hxt, err_bind] at h; cases h
          | ok attrib =>
              rw [hxt, ok_bind] at h
              cases hne : notationElems g rest with
              | error e => rw [hne, err_bind] at h; cases h
              | ok tail =>
                  rw [hne, ok_bind] at h
                  split at h
                  · injection h with h
                    subst h
                    exact ih tail hne
                  · injection h with h
                    subst h
                    exact Bal.append (bal_textual _ _ _) (ih tail hne)

theorem bal_serialize_identifiers (g : Graph) (e : Node) (evs : List Event)
    (h : serialize_identifiers g e = .ok evs) : Bal evs := by
  rw [serialize_identifiers] at h
  cases hne : notationElems g (objects g e skos_notation_uri) with
  | error er => rw [hne, err_bind] at h; cases h
  | ok a =>
      rw [hne, ok_bind] at h
      injection h with h
      subst h
      exact Bal.append (bal_notationElems g _ a hne)
        (bal_flatMap _ _ (fun i => bal_textual _ _ _))

theorem bal_find_first_plain (g : Graph) (e : Node) (n : String) (ps : List String) :
    Bal (find_first_plain g e n ps) := by
  rw [find_first_plain]
  cases (ps.flatMap (objects g e)).head? with
  | none => exact Bal.nil
  | some obj => exact bal_textual _ _ _

theorem bal_descriptive_text_element (ext : Ext) (n : String) (obj : Node)
    (attrib : List (String × String)) (evs : List Event)
    (h : descriptive_text_element ext n obj attrib = .ok evs) : Bal evs := by
  cases obj with
  | uri s =>
      injection h with h
      subst h
      have hb := Bal.node n [("href", s)] [] [] Bal.nil Bal.nil
      simpa using hb
  | blank s => cases h
  | lit t dt =>
      simp only [descriptive_text_element] at h
      rw [show datatypeOf (.lit t dt) = Except.ok dt from rfl, ok_bind] at h
      split at h
      · cases hp : ext.px (nodeStr (.lit t dt)) with
        | error e => rw [hp, err_bind] at h; cases h
        | ok xml =>
            rw [hp, ok_bind] at h
            injection h with h
            subst h
            have hb := Bal.node n attrib (serialize_etree xml XMLNSopt) []
              (bal_serialize_etree xml XMLNSopt) Bal.nil
            simpa using hb
      · split at h
        · cases hp : ext.ph (nodeStr (.lit t dt)) with
          | error e => rw [hp, err_bind] at h; cases h
          | ok xml =>
              rw [hp, ok_bind] at h
              injection h with h
              subst h
              have hb := Bal.node n attrib (serialize_etree xml XMLNSopt) []
                (bal_serialize_etree xml XMLNSopt) Bal.nil
              simpa using hb
        · injection h with h
          subst h
          exact bal_textual _ _ _

theorem bal_serialize_description (ext : Ext) (g : Graph) (e : Node) (evs : List Event)
    (h : serialize_description ext g e = .ok evs) : Bal evs := by
  rw [serialize_description] at h
  cases h0 : (descriptions.flatMap (objects g e)).head? with
  | none =>
      rw [h0] at h
      injection h with h
      subst h
      exact Bal.nil
  | some obj =>
      rw [h0] at h
      exact bal_descriptive_text_element ext _ obj [] evs h

theorem bal_serialize_location (g : Graph) (e : Node) (fuel : Nat) (evs : List Event)
    (h : serialize_location g e fuel = .ok evs) : Bal evs := by
  rw [serialize_location] at h
  split at h
  · cases h
  · injection h with h
    subst h
    exact Bal.nil
  · rename_i address heq
    split at h
    · injection h with h
      subst h
      have hin : Bal (address_elements.flatMap (fun pe =>
          match value g address pe.1 with
          | some obj => if truthy obj then textualElement pe.2 [] (nodeStr obj) else []
          | none => [])) := by
        apply bal_flatMap
        intro pe
        cases value g address pe.1 with
        | none => exact Bal.nil
        | some obj =>
            show Bal (if truthy obj = true then textualElement pe.2 [] (nodeStr obj) else [])
            by_cases ht : truthy obj = true
            · rw [if_pos ht]
              exact bal_textual _ _ _
            · rw [if_neg ht]
              exact Bal.nil
      have hb := Bal.node "mlo:location" [] _ [] hin Bal.nil
      simpa using hb
    · injection h with h
      subst h
      exact Bal.nil

theorem bal_serialize_common (ext : Ext) (g : Graph) (e : Node) (evs : List Event)
    (h : serialize_common ext g e = .ok evs) : Bal evs := by
  rw [serialize_common] at h
  cases hi : serialize_identifiers g e with
  | error er => rw [hi, err_bind] at h; cases h
  | ok a =>
      rw [hi, ok_bind] at h
      cases hd : serialize_description ext g e with
      | error er => rw [hd, err_bind] at h; cases h
      | ok d =>
          rw [hd, ok_bind] at h
          injection h with h
          subst h
          exact Bal.append
            (Bal.append
              (Bal.append (bal_serialize_identifiers g e a hi)
                (bal_find_first_plain g e _ _))
              (bal_find_first_plain g e _ _))
            (bal_serialize_description ext g e d hd)

/-- The names of the direct children of the outermost element of a stream:
a depth scan collecting names of elements opened at depth 1. -/
def childGo : List Event → Nat → List String
  | [], _ => []
  | .startE n _ :: rest, d => (if d == 1 then [n] else []) ++ childGo rest (d + 1)
  | .endE _ :: rest, d => childGo rest (d - 1)
  | .chars _ :: rest, d => childGo rest d

def childNames (evs : List Event) : List String := childGo evs 0

theorem childGo_append_bal {l : List Event} (hb : Bal l) :
    ∀ (rest : List Event) (d : Nat), 2 ≤ d →
      childGo (l ++ rest) d = childGo rest d := by
  induction hb with
  | nil => intro rest d hd; rfl
  | txt s l hb ih =>
      intro rest d hd
      simp only [List.cons_append, childGo]
      exact ih rest d hd
  | node n a inner rest0 hbi hbr ih1 ih2 =>
      intro rest d hd
      have hne : (d == 1) = false := by
        have h1 : d ≠ 1 := by omega
        simp [h1]
      have hsh : (Event.startE n a :: (inner ++ .endE n :: rest0)) ++ rest =
          Event.startE n a :: (inner ++ ((.endE n :: rest0) ++ rest)) := by simp
      rw [hsh]
      show (if (d == 1) = true then [n] else []) ++
        childGo (inner ++ ((Event.endE n :: rest0) ++ rest)) (d + 1) = _
      rw [hne]
      rw [ih1 ((Event.endE n :: rest0) ++ rest) (d + 1) (by omega)]
      show childGo (rest0 ++ rest) (d + 1 - 1) = childGo rest d
      have hd1 : d + 1 - 1 = d := by omega
      rw [hd1]
      exact ih2 rest d hd

/-- C9: whenever venue_element completes, its output is exactly an
xcri:venue element that wraps a nested xcri:provider element holding the
venue's common fields (identifiers, title, url, description) followed by
its location; the provider is the sole child of xcri:venue. -/
theorem venue_element_nests_all_in_provider
    (ext : Ext) (g : Graph) (venue : Node) (fuel : Nat) (evs : List Event)
    (h : venue_element ext g venue fuel = .ok evs) :
    (∃ common loc, serialize_common ext g venue = .ok common ∧
        serialize_location g venue fuel = .ok loc ∧
        evs = [.startE "xcri:venue" [], .startE "xcri:provider" []]
              ++ common ++ loc
              ++ [.endE "xcri:provider", .endE "xcri:venue"]) ∧
    childNames evs = ["xcri:provider"] := by
  rw [venue_element] at h
  cases hc : serialize_common ext g venue with
  | error er => rw [hc, err_bind] at h; cases h
  | ok common =>
      rw [hc, ok_bind] at h
      cases hl : serialize_location g venue fuel with
      | error er => rw [hl, err_bind] at h; cases h
      | ok loc =>
          rw [hl, ok_bind] at h
          injection h with h
          subst h
          refine ⟨⟨common, loc, rfl, rfl, rfl⟩, ?_⟩
          have hbc := bal_serialize_common ext g venue common hc
          have hbl := bal_serialize_location g venue fuel loc hl
          show childGo ([Event.startE "xcri:venue" [], .startE "xcri:provider" []]
            ++ common ++ loc ++ [.endE "xcri:provider", .endE "xcri:venue"]) 0 = _
          have hsh : ([Event.startE "xcri:venue" [], .startE "xcri:provider" []]
              ++ common ++ loc ++ [.endE "xcri:provider", .endE "xcri:venue"]) =
              Event.startE "xcri:venue" [] :: Event.startE "xcri:provider" [] ::
                (common ++ (loc ++ [.endE "xcri:provider", .endE "xcri:venue"])) := by
            simp
          rw [hsh]
          show (if (0 == 1) = true then ["xcri:venue"] else []) ++
            ((if (1 == 1) = true then ["xcri:provider"] else []) ++
              childGo (common ++ (loc ++ [.endE "xcri:provider", .endE "xcri:venue"])) 2) = _
          rw [childGo_append_bal hbc _ 2 (by omega),
            childGo_append_bal hbl _ 2 (by omega)]
          show ([] : List String) ++ (["xcri:provider"] ++ childGo [.endE "xcri:venue"] (2 - 1)) = _
          show ["xcri:provider"] ++ childGo ([] : List Event) (2 - 1 - 1) = _
          rfl

def extW9 : Ext :=
  ⟨fun _ => .error .parseFailure, fun _ => .error .parseFailure⟩

def venueW9 : Node := .uri "http://example.org/venue9"

def evsW9 : List Event :=
  [.startE "xcri:venue" [], .startE "xcri:provider" [],
   .startE "dc:identifier" [], .chars "http://example.org/venue9", .endE "dc:identifier",
   .endE "xcri:provider", .endE "xcri:venue"]

/-- Witness for C9: a venue with only its own URI as a fact. -/
theorem venue_element_nests_all_in_provider_witness :
    (∃ common loc, serialize_common extW9 ([] : Graph) venueW9 = .ok common ∧
        serialize_location ([] : Graph) venueW9 1 = .ok loc ∧
        evsW9 = [.startE "xcri:venue" [], .startE "xcri:provider" []]
              ++ common ++ loc
              ++ [.endE "xcri:provider", .endE "xcri:venue"]) ∧
    childNames evsW9 = ["xcri:provider"] :=
  venue_element_nests_all_in_provider extW9 ([] : Graph) venueW9 1 evsW9 (by rfl)

end XcriRdf
